import Mathlib

/-!
Shallow embedding of the LibBook seat-reservation frontend
(services/storage.ts fallback store, StudentDashboard, AdminDashboard/Auth),
with theorems checking the specification's claims against the code.
-/

namespace LibBook

/-- `UserRole` from types.ts. -/
inductive UserRole
  | STUDENT
  | ADMIN
deriving DecidableEq, Repr

/-- `User` from types.ts; optional fields are `Option String` (TS `?:`). -/
structure User where
  id : String
  name : String
  email : String
  password : Option String
  role : UserRole
  studentId : Option String := none
  department : Option String := none
  yearSection : Option String := none
  mobile : Option String := none
  isBlocked : Bool
deriving DecidableEq, Repr

/-- `SeatType` from types.ts. -/
inductive SeatType
  | STANDARD
  | QUIET
  | PC
deriving DecidableEq, Repr

/-- `Seat` from types.ts; grid coordinates are non-negative integers. -/
structure Seat where
  id : String
  label : String
  type : SeatType
  isMaintenance : Bool
  x : Nat
  y : Nat
  rotation : Nat
deriving DecidableEq, Repr

/-- Booking status union `'ACTIVE' | 'COMPLETED' | 'CANCELLED'` from types.ts. -/
inductive BookingStatus
  | ACTIVE
  | COMPLETED
  | CANCELLED
deriving DecidableEq, Repr

/-- `Booking` from types.ts. -/
structure Booking where
  id : String
  seatId : String
  userId : String
  userName : String
  date : String
  startTime : String
  endTime : String
  timestamp : Nat
  status : BookingStatus
deriving DecidableEq, Repr

/-! ## services/storage.ts — fallback (localStorage) mutations

The fallback branch of each hybrid mutation operates on the full collection
read from localStorage; we embed each branch as a pure function on the
collection. -/

/-- The conflict test inside `createBooking`'s fallback branch:
`bookings.some(b => b.seatId === booking.seatId && b.date === booking.date
&& b.startTime === booking.startTime && b.status === 'ACTIVE')`. -/
def isTaken (bookings : List Booking) (booking : Booking) : Bool :=
  bookings.any fun b =>
    b.seatId == booking.seatId && b.date == booking.date &&
    b.startTime == booking.startTime && b.status == BookingStatus.ACTIVE

/-- Fallback branch of `createBooking`: reject on an ACTIVE conflict for the
same (seatId, date, startTime), otherwise push the booking; returns the new
collection and the boolean result. -/
def createBooking (bookings : List Booking) (booking : Booking) :
    List Booking × Bool :=
  if isTaken bookings booking then (bookings, false)
  else (bookings ++ [booking], true)

/-- Fallback branch of `cancelBooking`: `findIndex` of the first booking with
the given id and set its status to CANCELLED (embedded as modify-first-match). -/
def cancelBooking : List Booking → String → List Booking
  | [], _ => []
  | b :: rest, bookingId =>
    if b.id == bookingId then { b with status := BookingStatus.CANCELLED } :: rest
    else b :: cancelBooking rest bookingId

/-- Fallback branch of `toggleSeatMaintenance`: `find` the first seat with the
given id and flip its `isMaintenance` flag in place (modify-first-match). -/
def toggleSeatMaintenance : List Seat → String → List Seat
  | [], _ => []
  | s :: rest, seatId =>
    if s.id == seatId then { s with isMaintenance := !s.isMaintenance } :: rest
    else s :: toggleSeatMaintenance rest seatId

/-! ## services/storage.ts — safeFetch and the sticky offline flag -/

/-- Outcome of one attempted remote HTTP round trip: either a network-level
failure (unreachable / abort / 3-second timeout) or a response carrying an
HTTP status code. -/
inductive RemoteOutcome
  | netFailure
  | response (status : Nat)
deriving DecidableEq, Repr

/-- Result of one `safeFetch` call: whether a `fetch` was issued at all,
`some status` when `safeFetch` returns the response (the remote backend
serves the operation), `none` when it throws (the caller's catch block runs
the localStorage fallback), and the value of `isOfflineMode` afterwards. -/
structure FetchResult where
  contactedRemote : Bool
  ok : Option Nat
  offlineAfter : Bool
deriving DecidableEq, Repr

/-- `safeFetch`: throws immediately when `isOfflineMode` is already set;
otherwise issues the fetch, throws (and sets the flag) on a network failure
or a status ≥ 500, and returns the response for any other status. -/
def safeFetch (offline : Bool) (out : RemoteOutcome) : FetchResult :=
  if offline then ⟨false, none, true⟩
  else
    match out with
    | RemoteOutcome.netFailure => ⟨true, none, true⟩
    | RemoteOutcome.response s =>
      if s ≥ 500 then ⟨true, none, true⟩ else ⟨true, some s, offline⟩

/-- Whether an outcome is one of the failure cases of `safeFetch` (network
failure / abort / timeout, or a 5xx response). -/
def remoteFailed : RemoteOutcome → Bool
  | RemoteOutcome.netFailure => true
  | RemoteOutcome.response s => s ≥ 500

/-- The `safeFetch` results of a whole sequence of store operations, each
threading the `isOfflineMode` flag to the next. -/
def runResults (offline : Bool) : List RemoteOutcome → List FetchResult
  | [] => []
  | o :: rest =>
    safeFetch offline o :: runResults (safeFetch offline o).offlineAfter rest

/-! ## StudentDashboard — time slots and the booking flow -/

/-- A slot of `ALL_TIME_SLOTS`: value `"HH:00"`, display label, start hour. -/
structure TimeSlot where
  value : String
  label : String
  hourInt : Nat
deriving DecidableEq, Repr

/-- `padStart(2, '0')` on a decimal rendering of `n` (hours are < 100). -/
def pad2 (n : Nat) : String :=
  if n < 10 then "0" ++ toString n else toString n

/-- JS `hour % 12 || 12` (0 is falsy, so midnight/noon render as 12). -/
def hour12 (h : Nat) : Nat :=
  if h % 12 == 0 then 12 else h % 12

/-- JS `hour < 12 ? 'AM' : 'PM'`. -/
def ampm (h : Nat) : String :=
  if h < 12 then "AM" else "PM"

/-- The slot built for index `i` in `ALL_TIME_SLOTS` (hour = i + 8). -/
def mkSlot (i : Nat) : TimeSlot :=
  let hour := i + 8
  { value := pad2 hour ++ ":00"
    label := toString (hour12 hour) ++ " " ++ ampm hour ++ " - " ++
             toString (hour12 (hour + 1)) ++ " " ++ ampm (hour + 1)
    hourInt := hour }

/-- `ALL_TIME_SLOTS = Array.from({length: 12}, (_, i) => ...)`. -/
def ALL_TIME_SLOTS : List TimeSlot :=
  (List.range 12).map mkSlot

/-- `getAvailableTimeSlots`: on the current calendar day keep only slots with
`hourInt > currentHour`; on any other date keep everything. -/
def getAvailableTimeSlots (isToday : Bool) (currentHour : Nat) : List TimeSlot :=
  ALL_TIME_SLOTS.filter fun slot =>
    if isToday then decide (slot.hourInt > currentHour) else true

/-- The data of the booking record `handleBook` constructs (everything except
the status, which `handleBook` always sets to ACTIVE). -/
structure BookingRequest where
  id : String
  seatId : String
  userId : String
  userName : String
  date : String
  startTime : String
  endTime : String
  timestamp : Nat
deriving DecidableEq, Repr

/-- The `newBooking` object of `handleBook`: the request data with
`status: 'ACTIVE'`. -/
def mkBooking (r : BookingRequest) : Booking :=
  { id := r.id, seatId := r.seatId, userId := r.userId, userName := r.userName
    date := r.date, startTime := r.startTime, endTime := r.endTime
    timestamp := r.timestamp, status := BookingStatus.ACTIVE }

/-- `handleBook`'s user-conflict check followed by `createBooking` against the
fallback store: reject when the acting user already holds an ACTIVE booking
for the same date+startTime, else hand the ACTIVE booking to `createBooking`. -/
def handleBook (bookings : List Booking) (r : BookingRequest) :
    List Booking × Bool :=
  let newBooking := mkBooking r
  if bookings.any fun b =>
      b.userId == newBooking.userId && b.date == newBooking.date &&
      b.startTime == newBooking.startTime && b.status == BookingStatus.ACTIVE
  then (bookings, false)
  else createBooking bookings newBooking

/-- A sequence of `createBooking` calls against the fallback store. -/
def runCreateBookings (bookings : List Booking) (reqs : List Booking) :
    List Booking :=
  reqs.foldl (fun acc r => (createBooking acc r).1) bookings

/-- A sequence of student-flow bookings (`handleBook` per request). -/
def runHandleBooks (bookings : List Booking) (reqs : List BookingRequest) :
    List Booking :=
  reqs.foldl (fun acc r => (handleBook acc r).1) bookings

/-! ## AdminDashboard — seat layout editor -/

/-- `generateLabel(x, y) = String.fromCharCode(65 + y) + (x + 1)`. -/
def generateLabel (x y : Nat) : String :=
  String.singleton (Char.ofNat (65 + y)) ++ toString (x + 1)

/-- The move branch of `handleEmptySlotClick`: rewrite the selected seat's
position and recompute its label. -/
def moveSeat (seats : List Seat) (selectedId : String) (x y : Nat) :
    List Seat :=
  seats.map fun s =>
    if s.id == selectedId then { s with x := x, y := y, label := generateLabel x y }
    else s

/-- The create branch of `handleEmptySlotClick`: the `newSeat` object. -/
def createSeat (newId : String) (x y : Nat) : Seat :=
  { id := newId, label := generateLabel x y, type := SeatType.STANDARD
    isMaintenance := false, x := x, y := y, rotation := 0 }

/-- `handleRotateSeat`: `newRotation = ((selectedSeat.rotation || 0) + 90) % 360`
applied to every seat whose id matches the selected seat. -/
def handleRotateSeat (seats : List Seat) (selectedId : String)
    (selectedRotation : Nat) : List Seat :=
  seats.map fun s =>
    if s.id == selectedId then { s with rotation := (selectedRotation + 90) % 360 }
    else s

/-! ## AdminDashboard / Auth — login and registration -/

/-- Outcome of `Auth.handleSubmit`: a logged-in user or an error message. -/
inductive AuthResult
  | success (u : User)
  | failure (msg : String)
deriving DecidableEq, Repr

/-- Login branch of `Auth.handleSubmit` (after client-side validation):
`users.find(u => u.email === email && u.password === password)`, then the
blocked gate, else invalid credentials. -/
def login (users : List User) (email password : String) : AuthResult :=
  match users.find? (fun u => u.email == email && u.password == some password) with
  | some u =>
    if u.isBlocked then
      AuthResult.failure "Your account has been blocked by the administrator."
    else AuthResult.success u
  | none => AuthResult.failure "Invalid credentials. Please try again."

/-- The registration form fields used by the register branch. -/
structure RegisterFields where
  name : String
  email : String
  password : String
  studentId : String
  department : String
  yearSection : String
  mobile : String
deriving DecidableEq, Repr

/-- Register branch of `Auth.handleSubmit` plus `saveUser`'s fallback (after
client-side validation): reject when a user with the same email exists,
otherwise build the STUDENT user and push it onto the collection. Returns the
resulting user collection and the outcome. `newId` stands for the generated
`user-${Date.now()}` id. -/
def register (users : List User) (f : RegisterFields) (newId : String) :
    List User × AuthResult :=
  if users.any fun u => u.email == f.email then
    (users, AuthResult.failure "An account with this email already exists.")
  else
    let newUser : User :=
      { id := newId, role := UserRole.STUDENT, isBlocked := false
        name := f.name, email := f.email, password := some f.password
        studentId := some f.studentId, department := some f.department
        yearSection := some f.yearSection, mobile := some f.mobile }
    (users ++ [newUser], AuthResult.success newUser)

/-! ## Invariants -/

/-- No two records with status ACTIVE share the same (seatId, date, startTime). -/
def NoActiveSeatConflict (bookings : List Booking) : Prop :=
  List.Pairwise (fun b b' =>
    ¬(b.status = BookingStatus.ACTIVE ∧ b'.status = BookingStatus.ACTIVE ∧
      b.seatId = b'.seatId ∧ b.date = b'.date ∧ b.startTime = b'.startTime)) bookings

/-- No user holds two ACTIVE bookings for the same (date, startTime): at most
one ACTIVE booking per (userId, date, startTime) tuple. -/
def NoActiveUserConflict (bookings : List Booking) : Prop :=
  List.Pairwise (fun b b' =>
    ¬(b.status = BookingStatus.ACTIVE ∧ b'.status = BookingStatus.ACTIVE ∧
      b.userId = b'.userId ∧ b.date = b'.date ∧ b.startTime = b'.startTime)) bookings

/-! ## Demo data for witnesses -/

/-- A concrete seat used to instantiate universally quantified theorems. -/
def demoSeat : Seat :=
  { id := "s1", label := "L1", type := SeatType.STANDARD, isMaintenance := false
    x := 0, y := 0, rotation := 0 }

/-- A concrete booking used to instantiate universally quantified theorems. -/
def demoBooking : Booking :=
  { id := "bk-1", seatId := "s1", userId := "student-1", userName := "John Doe"
    date := "2026-10-11", startTime := "18:00", endTime := "19:00"
    timestamp := 0, status := BookingStatus.ACTIVE }

/-- A concrete booking request used to instantiate theorems. -/
def demoRequest : BookingRequest :=
  { id := "bk-2", seatId := "s2", userId := "student-1", userName := "John Doe"
    date := "2026-10-11", startTime := "18:00", endTime := "19:00"
    timestamp := 1 }

/-- A concrete blocked student account. -/
def demoBlockedUser : User :=
  { id := "student-9", name := "Blocked Student", email := "blocked@student.edu"
    password := some "pass", role := UserRole.STUDENT, isBlocked := true }

/-- A concrete registration form. -/
def demoFields : RegisterFields :=
  { name := "Blocked Student", email := "blocked@student.edu", password := "pass"
    studentId := "CS0", department := "CS", yearSection := "1-A", mobile := "5550000000" }

/-! ## Theorems -/

/-- C4: The time-slot domain is exactly the 12 hourly slots with start hours
08:00 through 19:00; when the booking date is the current calendar day the
available-slot computation returns exactly the slots whose start hour is
strictly greater than the current local hour, and for any other date it
returns all 12 slots unfiltered. -/
theorem timeSlot_domain_and_filter (currentHour : Nat) (s : TimeSlot) :
    ALL_TIME_SLOTS.length = 12 ∧
    ALL_TIME_SLOTS.map (fun t => t.hourInt) =
      [8, 9, 10, 11, 12, 13, 14, 15, 16, 17, 18, 19] ∧
    ALL_TIME_SLOTS.map (fun t => t.value) =
      ["08:00", "09:00", "10:00", "11:00", "12:00", "13:00",
       "14:00", "15:00", "16:00", "17:00", "18:00", "19:00"] ∧
    (s ∈ getAvailableTimeSlots true currentHour ↔
      s ∈ ALL_TIME_SLOTS ∧ currentHour < s.hourInt) ∧
    getAvailableTimeSlots false currentHour = ALL_TIME_SLOTS := by
  refine ⟨by decide, by decide, by decide, ?_, ?_⟩
  · simp [getAvailableTimeSlots, List.mem_filter]
  · simp [getAvailableTimeSlots]

/-- C8: the layout editor derives a seat's label from its grid position as
`'A' + y` concatenated with `x + 1`, for both seat creation and seat move;
a seat at (0,0) is labeled "A1" and a seat at (4,2) is labeled "C5". -/
theorem seat_label_from_grid (seats : List Seat) (selectedId newId : String)
    (x y : Nat) (s' : Seat) (h : s' ∈ moveSeat seats selectedId x y)
    (hid : s'.id = selectedId) :
    generateLabel 0 0 = "A1" ∧ generateLabel 4 2 = "C5" ∧
    (createSeat newId x y).label = generateLabel x y ∧
    s'.label = generateLabel x y := by
  refine ⟨by decide, by decide, rfl, ?_⟩
  obtain ⟨s, hs, hmap⟩ := List.mem_map.mp h
  by_cases hc : s.id = selectedId
  · simp only [hc, beq_self_eq_true, if_true] at hmap
    rw [← hmap]
  · simp only [beq_iff_eq, hc, if_false] at hmap
    exact absurd (hmap ▸ hid) hc

/-- C8 witness: moving the demo seat to (4, 2) yields label "C5". -/
theorem seat_label_from_grid_witness :
    generateLabel 0 0 = "A1" ∧ generateLabel 4 2 = "C5" ∧
    (createSeat "seat-2" 4 2).label = generateLabel 4 2 ∧
    ({ demoSeat with x := 4, y := 2, label := generateLabel 4 2 } : Seat).label =
      generateLabel 4 2 :=
  seat_label_from_grid [demoSeat] "s1" "seat-2" 4 2
    { demoSeat with x := 4, y := 2, label := generateLabel 4 2 }
    (by decide) (by decide)

/-- Two successive rotate operations on the same seat id collapse to the
second one: the second write overwrites the rotation unconditionally. -/
lemma handleRotateSeat_handleRotateSeat (seats : List Seat) (sid : String)
    (r r' : Nat) :
    handleRotateSeat (handleRotateSeat seats sid r) sid r' =
    handleRotateSeat seats sid r' := by
  unfold handleRotateSeat
  rw [List.map_map]
  apply List.map_congr_left
  intro s _
  by_cases h : s.id = sid
  · simp [Function.comp, h]
  · simp [Function.comp, h]

/-- Mapping the rotate update over seats whose matching entries already carry
rotation `r` is the identity. -/
lemma map_rotate_id (seats : List Seat) (sid : String) (r : Nat)
    (hall : ∀ s ∈ seats, s.id = sid → s.rotation = r) :
    (seats.map fun s =>
      if s.id == sid then { s with rotation := r } else s) = seats := by
  induction seats with
  | nil => rfl
  | cons s rest ih =>
    rw [List.map_cons]
    have h1 : (if s.id == sid then { s with rotation := r } else s) = s := by
      by_cases h : s.id = sid
      · have hr := hall s (by simp) h
        rw [if_pos (by simp [h]), ← hr]
      · rw [if_neg (by simp [h])]
    rw [h1, ih fun q hq hqid => hall q (List.mem_cons_of_mem _ hq) hqid]

/-- C9: one rotate replaces the selected seat's rotation `r` by
`(r + 90) % 360` and leaves every other field and every other seat unchanged;
four successive rotates return the seat collection to its original state when
rotations lie in {0, 90, 180, 270}. -/
theorem rotate_seat_four_times (seats : List Seat) (sid : String) (r : Nat)
    (hall : ∀ s ∈ seats, s.id = sid → s.rotation = r)
    (hr : r = 0 ∨ r = 90 ∨ r = 180 ∨ r = 270) :
    (∀ s ∈ seats,
      (s.id = sid →
        { s with rotation := (r + 90) % 360 } ∈ handleRotateSeat seats sid r) ∧
      (s.id ≠ sid → s ∈ handleRotateSeat seats sid r)) ∧
    handleRotateSeat (handleRotateSeat (handleRotateSeat
        (handleRotateSeat seats sid r) sid ((r + 90) % 360))
        sid (((r + 90) % 360 + 90) % 360))
        sid ((((r + 90) % 360 + 90) % 360 + 90) % 360) = seats := by
  constructor
  · intro s hs
    refine ⟨fun h => ?_, fun h => ?_⟩
    · exact List.mem_map.mpr ⟨s, hs, by simp [h]⟩
    · exact List.mem_map.mpr ⟨s, hs, by simp [h]⟩
  · rw [handleRotateSeat_handleRotateSeat, handleRotateSeat_handleRotateSeat,
      handleRotateSeat_handleRotateSeat]
    have hR : ((((r + 90) % 360 + 90) % 360 + 90) % 360 + 90) % 360 = r := by
      rcases hr with h | h | h | h <;> subst h <;> rfl
    unfold handleRotateSeat
    rw [show (fun s : Seat =>
        if s.id == sid then
          { s with rotation := ((((r + 90) % 360 + 90) % 360 + 90) % 360 + 90) % 360 }
        else s) =
        (fun s : Seat => if s.id == sid then { s with rotation := r } else s)
      from funext fun s => by rw [hR]]
    exact map_rotate_id seats sid r hall

/-- C9 witness: rotating the demo seat four times restores the layout. -/
theorem rotate_seat_four_times_witness :
    handleRotateSeat (handleRotateSeat (handleRotateSeat
        (handleRotateSeat [demoSeat] "s1" 0) "s1" ((0 + 90) % 360))
        "s1" (((0 + 90) % 360 + 90) % 360))
        "s1" ((((0 + 90) % 360 + 90) % 360 + 90) % 360) = [demoSeat] :=
  (rotate_seat_four_times [demoSeat] "s1" 0 (by decide) (Or.inl rfl)).2

/-- `isTaken` is the existence of an ACTIVE booking on the same
(seatId, date, startTime). -/
lemma isTaken_iff (bs : List Booking) (b : Booking) :
    isTaken bs b = true ↔
    ∃ b' ∈ bs, b'.seatId = b.seatId ∧ b'.date = b.date ∧
      b'.startTime = b.startTime ∧ b'.status = BookingStatus.ACTIVE := by
  simp [isTaken, List.any_eq_true, and_assoc]

/-- One `createBooking` call preserves the seat-level ACTIVE uniqueness
invariant. -/
lemma createBooking_preserves_seat (bs : List Booking) (b : Booking)
    (h : NoActiveSeatConflict bs) :
    NoActiveSeatConflict (createBooking bs b).1 := by
  unfold createBooking
  by_cases ht : isTaken bs b = true
  · simp [ht]; exact h
  · simp [ht]
    rw [NoActiveSeatConflict, List.pairwise_append]
    refine ⟨h, List.pairwise_singleton _ _, ?_⟩
    intro a ha b' hb'
    rw [List.mem_singleton] at hb'
    subst hb'
    rintro ⟨haA, hbA, hseat, hdate, htime⟩
    exact ht ((isTaken_iff bs b').mpr ⟨a, ha, hseat, hdate, htime, haA⟩)

/-- A whole sequence of `createBooking` calls preserves the invariant. -/
lemma runCreateBookings_preserves (init reqs : List Booking)
    (h : NoActiveSeatConflict init) :
    NoActiveSeatConflict (runCreateBookings init reqs) := by
  induction reqs generalizing init with
  | nil => exact h
  | cons r rest ih =>
    simp only [runCreateBookings, List.foldl_cons] at *
    exact ih _ (createBooking_preserves_seat _ _ h)

/-- C1: starting from a collection with no two ACTIVE bookings on the same
(seatId, date, startTime), any sequence of fallback `createBooking` calls
keeps that invariant; a single call returns false and leaves the collection
unchanged exactly when an ACTIVE booking already occupies the tuple, and
otherwise appends the booking and returns true. -/
theorem createBooking_active_seat_uniqueness
    (init reqs bs : List Booking) (b : Booking)
    (h : NoActiveSeatConflict init) :
    NoActiveSeatConflict (runCreateBookings init reqs) ∧
    ((∃ b' ∈ bs, b'.seatId = b.seatId ∧ b'.date = b.date ∧
        b'.startTime = b.startTime ∧ b'.status = BookingStatus.ACTIVE) →
      createBooking bs b = (bs, false)) ∧
    (¬(∃ b' ∈ bs, b'.seatId = b.seatId ∧ b'.date = b.date ∧
        b'.startTime = b.startTime ∧ b'.status = BookingStatus.ACTIVE) →
      createBooking bs b = (bs ++ [b], true)) := by
  refine ⟨runCreateBookings_preserves init reqs h, fun hex => ?_, fun hnex => ?_⟩
  · rw [createBooking, if_pos ((isTaken_iff bs b).mpr hex)]
  · rw [createBooking, if_neg ?_]
    intro hc
    exact hnex ((isTaken_iff bs b).mp hc)

/-- C1 witness: one conflicting call is rejected; the run from the empty
collection keeps the invariant. -/
theorem createBooking_active_seat_uniqueness_witness :
    NoActiveSeatConflict (runCreateBookings [] [demoBooking, demoBooking]) ∧
    createBooking [demoBooking] demoBooking = ([demoBooking], false) :=
  have h := createBooking_active_seat_uniqueness [] [demoBooking, demoBooking]
    [demoBooking] demoBooking List.Pairwise.nil
  ⟨h.1, h.2.1 ⟨demoBooking, by simp, rfl, rfl, rfl, rfl⟩⟩

/-- One student-flow booking (`handleBook`) preserves the user-level ACTIVE
uniqueness invariant. -/
lemma handleBook_preserves_user (bs : List Booking) (r : BookingRequest)
    (h : NoActiveUserConflict bs) :
    NoActiveUserConflict (handleBook bs r).1 := by
  unfold handleBook
  by_cases hc : (bs.any fun b =>
      b.userId == (mkBooking r).userId && b.date == (mkBooking r).date &&
      b.startTime == (mkBooking r).startTime &&
      b.status == BookingStatus.ACTIVE) = true
  · simp [hc]; exact h
  · simp only [hc, Bool.false_eq_true, if_false]
    unfold createBooking
    by_cases ht : isTaken bs (mkBooking r) = true
    · simp [ht]; exact h
    · simp only [ht, Bool.false_eq_true, if_false]
      rw [NoActiveUserConflict, List.pairwise_append]
      refine ⟨h, List.pairwise_singleton _ _, ?_⟩
      intro a ha b' hb'
      rw [List.mem_singleton] at hb'
      subst hb'
      rintro ⟨haA, _, huser, hdate, htime⟩
      apply hc
      rw [List.any_eq_true]
      exact ⟨a, ha, by simp [huser, hdate, htime, haA]⟩

/-- C3: along any sequence of student-flow bookings (the caller's
user-conflict check followed by `createBooking` on the fallback store), the
invariant "at most one ACTIVE booking per (userId, date, startTime)" is
preserved; a request for a slot the user already holds is rejected without
change. -/
theorem student_flow_user_uniqueness (init : List Booking)
    (reqs : List BookingRequest) (bs : List Booking) (r : BookingRequest)
    (h : NoActiveUserConflict init) :
    NoActiveUserConflict (runHandleBooks init reqs) ∧
    ((∃ b ∈ bs, b.userId = r.userId ∧ b.date = r.date ∧
        b.startTime = r.startTime ∧ b.status = BookingStatus.ACTIVE) →
      handleBook bs r = (bs, false)) := by
  constructor
  · induction reqs generalizing init with
    | nil => exact h
    | cons q rest ih =>
      simp only [runHandleBooks, List.foldl_cons] at *
      exact ih _ (handleBook_preserves_user _ _ h)
  · intro hex
    obtain ⟨b, hb, h1, h2, h3, h4⟩ := hex
    rw [handleBook, if_pos ?_]
    rw [List.any_eq_true]
    exact ⟨b, hb, by simp [mkBooking, h1, h2, h3, h4]⟩

/-- C3 witness: a second request for the same (user, date, startTime) is
rejected, and a run from the empty store keeps the invariant. -/
theorem student_flow_user_uniqueness_witness :
    NoActiveUserConflict (runHandleBooks [] [demoRequest, demoRequest]) ∧
    handleBook [demoBooking] demoRequest = ([demoBooking], false) :=
  have h := student_flow_user_uniqueness [] [demoRequest, demoRequest]
    [demoBooking] demoRequest List.Pairwise.nil
  ⟨h.1, h.2 ⟨demoBooking, by simp, rfl, rfl, rfl, rfl⟩⟩

/-- C5: registering with an email already present in the user collection
fails with the duplicate-account error and leaves the collection unchanged. -/
theorem register_duplicate_email (users : List User) (f : RegisterFields)
    (newId : String) (h : ∃ u ∈ users, u.email = f.email) :
    register users f newId =
      (users, AuthResult.failure "An account with this email already exists.") := by
  rw [register, if_pos ?_]
  rw [List.any_eq_true]
  obtain ⟨u, hu, he⟩ := h
  exact ⟨u, hu, by simp [he]⟩

/-- C5 witness: re-registering the blocked demo user's email is rejected
without touching the collection. -/
theorem register_duplicate_email_witness :
    register [demoBlockedUser] demoFields "user-1" =
      ([demoBlockedUser],
        AuthResult.failure "An account with this email already exists.") :=
  register_duplicate_email [demoBlockedUser] demoFields "user-1"
    ⟨demoBlockedUser, by simp, rfl⟩

/-- With pairwise-distinct emails, `find?` over the login predicate returns
exactly the stored user with the given email and password. -/
lemma login_find (users : List User) (u : User) (e p : String)
    (hdist : List.Pairwise (fun a b => a.email ≠ b.email) users)
    (hu : u ∈ users) (he : u.email = e) (hp : u.password = some p) :
    users.find? (fun v => v.email == e && v.password == some p) = some u := by
  induction users with
  | nil => cases hu
  | cons v rest ih =>
    rcases List.mem_cons.mp hu with h | h
    · subst h
      exact List.find?_cons_of_pos _ (by simp [he, hp])
    · have hv : v.email ≠ u.email := (List.pairwise_cons.mp hdist).1 u h
      have hne : v.email ≠ e := he ▸ hv
      rw [List.find?_cons_of_neg _ (by simp [hne])]
      exact ih (List.pairwise_cons.mp hdist).2 h

/-- C6: with an email/password pair exactly matching a stored user, login
fails with the distinct blocked-account error when `isBlocked` is set and
succeeds with that user record when it is not (emails are unique across the
collection, per the data model). -/
theorem login_blocked_gate (users : List User) (u : User) (e p : String)
    (hdist : List.Pairwise (fun a b => a.email ≠ b.email) users)
    (hu : u ∈ users) (he : u.email = e) (hp : u.password = some p) :
    (u.isBlocked = true →
      login users e p =
        AuthResult.failure "Your account has been blocked by the administrator.") ∧
    (u.isBlocked = false → login users e p = AuthResult.success u) := by
  rw [login, login_find users u e p hdist hu he hp]
  constructor
  · intro hb; simp [hb]
  · intro hb; simp [hb]

/-- C6 witness: the blocked demo user gets the blocked-account error. -/
theorem login_blocked_gate_witness :
    login [demoBlockedUser] "blocked@student.edu" "pass" =
      AuthResult.failure "Your account has been blocked by the administrator." :=
  (login_blocked_gate [demoBlockedUser] demoBlockedUser
      "blocked@student.edu" "pass" (by simp) (by simp) rfl rfl).1 rfl

/-- `cancelBooking` rewrites exactly the first booking whose id matches,
setting its status to CANCELLED and leaving everything else unchanged. -/
lemma cancelBooking_first_match (pre : List Booking) (b : Booking)
    (post : List Booking) (bid : String)
    (hpre : ∀ q ∈ pre, q.id ≠ bid) (hb : b.id = bid) :
    cancelBooking (pre ++ b :: post) bid =
      pre ++ { b with status := BookingStatus.CANCELLED } :: post := by
  induction pre with
  | nil => simp [cancelBooking, hb]
  | cons q pre' ih =>
    have hq : q.id ≠ bid := hpre q (by simp)
    simp only [List.cons_append, cancelBooking, beq_iff_eq, hq, if_false]
    exact congrArg (List.cons q) (ih fun p hp => hpre p (List.mem_cons_of_mem _ hp))

/-- Cancelling twice equals cancelling once. -/
lemma cancelBooking_cancelBooking (l : List Booking) (bid : String) :
    cancelBooking (cancelBooking l bid) bid = cancelBooking l bid := by
  induction l with
  | nil => rfl
  | cons b rest ih =>
    by_cases h : b.id = bid
    · simp [cancelBooking, h]
    · simp [cancelBooking, h, ih]

/-- C7: `cancelBooking` is idempotent in effect on status: on a collection
containing a booking with the given id, one application sets the first such
booking's status to CANCELLED (all other records untouched), and a second
application leaves the collection exactly as after the first. -/
theorem cancelBooking_idempotent (l pre post : List Booking) (b : Booking)
    (bid : String) (hsplit : l = pre ++ b :: post)
    (hpre : ∀ q ∈ pre, q.id ≠ bid) (hb : b.id = bid) :
    cancelBooking l bid =
      pre ++ { b with status := BookingStatus.CANCELLED } :: post ∧
    cancelBooking (cancelBooking l bid) bid = cancelBooking l bid := by
  subst hsplit
  exact ⟨cancelBooking_first_match pre b post bid hpre hb,
    cancelBooking_cancelBooking _ bid⟩

/-- C7 witness: cancelling the demo booking once marks it CANCELLED and a
second cancellation changes nothing. -/
theorem cancelBooking_idempotent_witness :
    cancelBooking [demoBooking] "bk-1" =
      [{ demoBooking with status := BookingStatus.CANCELLED }] ∧
    cancelBooking (cancelBooking [demoBooking] "bk-1") "bk-1" =
      cancelBooking [demoBooking] "bk-1" :=
  cancelBooking_idempotent [demoBooking] [] [] demoBooking "bk-1" rfl
    (by simp) rfl

/-- `toggleSeatMaintenance` flips exactly the first seat whose id matches. -/
lemma toggleSeatMaintenance_first_match (pre : List Seat) (s : Seat)
    (post : List Seat) (sid : String)
    (hpre : ∀ q ∈ pre, q.id ≠ sid) (hs : s.id = sid) :
    toggleSeatMaintenance (pre ++ s :: post) sid =
      pre ++ { s with isMaintenance := !s.isMaintenance } :: post := by
  induction pre with
  | nil => simp [toggleSeatMaintenance, hs]
  | cons q pre' ih =>
    have hq : q.id ≠ sid := hpre q (by simp)
    simp only [List.cons_append, toggleSeatMaintenance, beq_iff_eq, hq, if_false]
    exact congrArg (List.cons q) (ih fun p hp => hpre p (List.mem_cons_of_mem _ hp))

/-- C10: `toggleSeatMaintenance` is an involution: one application flips only
the first seat with the given id (all its other fields and every other seat
unchanged), two applications restore the collection exactly, and an id not
present leaves the collection unchanged. -/
theorem toggleSeatMaintenance_involution (seats pre post : List Seat)
    (s : Seat) (sid : String) :
    toggleSeatMaintenance (toggleSeatMaintenance seats sid) sid = seats ∧
    ((∀ q ∈ seats, q.id ≠ sid) → toggleSeatMaintenance seats sid = seats) ∧
    (seats = pre ++ s :: post → (∀ q ∈ pre, q.id ≠ sid) → s.id = sid →
      toggleSeatMaintenance seats sid =
        pre ++ { s with isMaintenance := !s.isMaintenance } :: post) := by
  refine ⟨?_, ?_, ?_⟩
  · induction seats with
    | nil => rfl
    | cons q rest ih =>
      by_cases h : q.id = sid
      · have e1 : toggleSeatMaintenance (q :: rest) sid =
            { q with isMaintenance := !q.isMaintenance } :: rest := by
          simp only [toggleSeatMaintenance]
          rw [if_pos (by simp [h])]
        have e2 : toggleSeatMaintenance
              ({ q with isMaintenance := !q.isMaintenance } :: rest) sid =
            { q with isMaintenance := !(!q.isMaintenance) } :: rest := by
          simp only [toggleSeatMaintenance]
          rw [if_pos (by simp [h])]
        rw [e1, e2, Bool.not_not]
      · simp [toggleSeatMaintenance, h, ih]
  · intro hnone
    induction seats with
    | nil => rfl
    | cons q rest ih =>
      have hq : q.id ≠ sid := hnone q (by simp)
      simp only [toggleSeatMaintenance, beq_iff_eq, hq, if_false]
      rw [ih fun p hp => hnone p (List.mem_cons_of_mem _ hp)]
  · intro hsplit hpre hs
    subst hsplit
    exact toggleSeatMaintenance_first_match pre s post sid hpre hs

/-- C10 witness: toggling the demo seat's maintenance flag twice restores the
collection; toggling a missing id changes nothing. -/
theorem toggleSeatMaintenance_involution_witness :
    toggleSeatMaintenance (toggleSeatMaintenance [demoSeat] "s1") "s1" =
      [demoSeat] ∧
    toggleSeatMaintenance [demoSeat] "s1" =
      [{ demoSeat with isMaintenance := !demoSeat.isMaintenance }] :=
  have h := toggleSeatMaintenance_involution [demoSeat] [] [] demoSeat "s1"
  ⟨h.1, h.2.2 rfl (by simp) rfl⟩

/-- Once the offline flag is set, every subsequent `safeFetch` issues no
fetch, throws (so the caller's catch block serves the operation from the
localStorage fallback), and leaves the flag set. -/
lemma runResults_of_offline (post : List RemoteOutcome) :
    ∀ r ∈ runResults true post,
      r.contactedRemote = false ∧ r.ok = none ∧ r.offlineAfter = true := by
  induction post with
  | nil => intro r hr; cases hr
  | cons o rest ih =>
    intro r hr
    have hs : safeFetch true o = ⟨false, none, true⟩ := by simp [safeFetch]
    rw [runResults, hs] at hr
    rcases List.mem_cons.mp hr with h | h
    · subst h; exact ⟨rfl, rfl, rfl⟩
    · exact ih r h

/-- C2: any remote failure (network failure / abort / timeout, or a response
with status ≥ 500) sets the process-wide sticky offline flag, and from then
on every store operation's `safeFetch` issues no fetch at all, throws (so the
operation is served by the localStorage fallback), and keeps the flag set. -/
theorem safeFetch_sticky_offline (off0 : Bool) (o : RemoteOutcome)
    (post : List RemoteOutcome) (h : remoteFailed o = true) :
    (safeFetch off0 o).offlineAfter = true ∧
    ∀ r ∈ runResults (safeFetch off0 o).offlineAfter post,
      r.contactedRemote = false ∧ r.ok = none ∧ r.offlineAfter = true := by
  have h1 : (safeFetch off0 o).offlineAfter = true := by
    cases o with
    | netFailure => by_cases ho : off0 <;> simp [safeFetch, ho]
    | response s =>
      have hs : 500 ≤ s := by simpa [remoteFailed] using h
      by_cases ho : off0 <;> simp [safeFetch, ho, hs]
  rw [h1]
  exact ⟨rfl, runResults_of_offline post⟩

/-- C2 witness: after one network failure the flag is set, and a later 200
response is never fetched — it is served offline by the fallback. -/
theorem safeFetch_sticky_offline_witness :
    (safeFetch false RemoteOutcome.netFailure).offlineAfter = true ∧
    (safeFetch true (RemoteOutcome.response 200)).contactedRemote = false ∧
    (safeFetch true (RemoteOutcome.response 200)).ok = none ∧
    (safeFetch true (RemoteOutcome.response 200)).offlineAfter = true :=
  have h := safeFetch_sticky_offline false RemoteOutcome.netFailure
    [RemoteOutcome.response 200] rfl
  ⟨h.1, h.2 (safeFetch true (RemoteOutcome.response 200)) (by
    rw [show (safeFetch false RemoteOutcome.netFailure).offlineAfter = true from h.1]
    simp [runResults])⟩

end LibBook
